import Mathlib

/-!
Shallow embedding of the timberlogs Rust SDK (enaboapps/timberlogs-rust-sdk).

The sources embedded here are `src/types.rs`, `src/error.rs` and
`src/client.rs`.  Pure functions (`validate_entry`, the config resolution in
`TimberlogsClient::new`) become Lean functions.  The stateful parts
(`TimberlogsClient::log`, `flush_batch`, `send_batch`, `Flow::log_with_level`)
become explicit state-passing functions: the queue is threaded as a
`List CreateLogArgs`, and the network is an oracle supplied as an argument
(for `send_batch` a function from the attempt index to that attempt's HTTP
outcome; for `flush_batch`/`log` a function from the drained batch to the
outcome of the whole delivery sequence).  Records that other tasks enqueue
while a send is in flight (the queue lock is released across the await) are
passed as an explicit `arrivals` list.
-/

namespace Timberlogs

/-- `LogLevel` from `src/types.rs` (derives `Ord` in declaration order:
`Debug < Info < Warn < Error`). -/
inductive LogLevel where
  | Debug
  | Info
  | Warn
  | Error
deriving DecidableEq, Repr

/-- The rank giving the derived `Ord` of the Rust enum. -/
def LogLevel.toNat : LogLevel → Nat
  | .Debug => 0
  | .Info => 1
  | .Warn => 2
  | .Error => 3

/-- `Environment` from `src/types.rs`. -/
inductive Environment where
  | Development
  | Staging
  | Production
deriving DecidableEq, Repr

/-- `HashMap<String, serde_json::Value>` payloads: the log pipeline never
inspects them, so JSON values are abstracted as their serialized text. -/
abbrev JsonMap := List (String × String)

/-- `LogEntry` from `src/types.rs`.  Rust `u32`/`u64` fields are modelled as
`Nat` (no arithmetic is performed on them that could overflow). -/
structure LogEntry where
  level : LogLevel
  message : String
  data : Option JsonMap
  user_id : Option String
  session_id : Option String
  request_id : Option String
  error_name : Option String
  error_stack : Option String
  tags : Option (List String)
  flow_id : Option String
  step_index : Option Nat
  dataset : Option String
  timestamp : Option Nat
  ip_address : Option String
  country : Option String
deriving DecidableEq, Repr

/-- `impl Default for LogEntry` in `src/client.rs`: level `Info`, empty
message, every optional field unset. -/
def defaultLogEntry : LogEntry where
  level := .Info
  message := ""
  data := none
  user_id := none
  session_id := none
  request_id := none
  error_name := none
  error_stack := none
  tags := none
  flow_id := none
  step_index := none
  dataset := none
  timestamp := none
  ip_address := none
  country := none

/-- `CreateLogArgs` from `src/types.rs` (the unit actually queued).
`timestamp`/`ip_address`/`country` are declared in `types.rs` but never set
by the `CreateLogArgs` constructor in `TimberlogsClient::log`. -/
structure CreateLogArgs where
  level : LogLevel
  message : String
  source : String
  environment : Environment
  version : Option String
  user_id : Option String
  session_id : Option String
  request_id : Option String
  data : Option JsonMap
  error_name : Option String
  error_stack : Option String
  tags : Option (List String)
  flow_id : Option String
  step_index : Option Nat
  dataset : Option String
  timestamp : Option Nat
  ip_address : Option String
  country : Option String
deriving DecidableEq, Repr

/-- `TimberlogsError` from `src/error.rs`.  A `reqwest::Error` carries no
structure the SDK inspects, so it is modelled by its message text. -/
inductive TimberlogsError where
  | Validation (msg : String)
  | Http (status : Nat) (body : String)
  | Request (e : String)
  | NotConnected
deriving DecidableEq, Repr

/-- `RetryConfig` from `src/client.rs`. -/
structure RetryConfig where
  max_retries : Nat
  initial_delay_ms : Nat
  max_delay_ms : Nat
deriving DecidableEq, Repr

def DEFAULT_BATCH_SIZE : Nat := 10
def DEFAULT_FLUSH_INTERVAL_MS : Nat := 5000
def DEFAULT_MAX_RETRIES : Nat := 3
def DEFAULT_INITIAL_DELAY_MS : Nat := 1000
def DEFAULT_MAX_DELAY_MS : Nat := 30000

/-- `impl Default for RetryConfig` in `src/client.rs`. -/
def RetryConfig.defaultConfig : RetryConfig where
  max_retries := DEFAULT_MAX_RETRIES
  initial_delay_ms := DEFAULT_INITIAL_DELAY_MS
  max_delay_ms := DEFAULT_MAX_DELAY_MS

/-- `TimberlogsConfig` from `src/client.rs` (the public configuration
surface). -/
structure TimberlogsConfig where
  source : String
  environment : Environment
  api_key : String
  version : Option String
  user_id : Option String
  session_id : Option String
  dataset : Option String
  batch_size : Option Nat
  flush_interval_ms : Option Nat
  min_level : Option LogLevel
  retry : Option RetryConfig

/-- The field names of the `TimberlogsConfig` struct in `src/client.rs`
(lines 33-45), in declaration order: the set of options the configuration
surface recognizes. -/
def timberlogsConfigFields : List String :=
  ["source", "environment", "api_key", "version", "user_id", "session_id",
   "dataset", "batch_size", "flush_interval_ms", "min_level", "retry"]

/-- The private `ClientConfig` from `src/client.rs`.  `user_id`/`session_id`
live in mutex cells; here they hold the value a `try_lock` read observes
(`none` either when unset or when the lock was contended). -/
structure ClientConfig where
  source : String
  environment : Environment
  api_key : String
  version : Option String
  user_id : Option String
  session_id : Option String
  dataset : Option String
  batch_size : Nat
  min_level : LogLevel
  retry : RetryConfig

/-- The config resolution in `TimberlogsClient::new`: each optional option
falls back to its default.  Returns the resolved `ClientConfig` together with
the flush interval handed to the background scheduler. -/
def TimberlogsClient.new (config : TimberlogsConfig) : ClientConfig × Nat :=
  ({ source := config.source
     environment := config.environment
     api_key := config.api_key
     version := config.version
     user_id := config.user_id
     session_id := config.session_id
     dataset := config.dataset
     batch_size := config.batch_size.getD DEFAULT_BATCH_SIZE
     min_level := config.min_level.getD .Debug
     retry := config.retry.getD RetryConfig.defaultConfig },
   config.flush_interval_ms.getD DEFAULT_FLUSH_INTERVAL_MS)

/-- The `for (i, tag) in tags.iter().enumerate()` loop of `validate_entry`:
first over-long tag wins, reported with its index. -/
def check_tags_from (i : Nat) : List String → Except TimberlogsError Unit
  | [] => .ok ()
  | tag :: rest =>
    if tag.length > 50 then
      .error (.Validation ("tags[" ++ toString i ++ "] exceeds 50 characters: "
        ++ toString tag.length))
    else
      check_tags_from (i + 1) rest

/-- The `if let Some(ref tags)` block of `validate_entry`. -/
def check_tags_field (entry : LogEntry) : Except TimberlogsError Unit :=
  match entry.tags with
  | some tags =>
    if tags.length > 20 then
      .error (.Validation ("tags must have at most 20 items, got "
        ++ toString tags.length))
    else
      check_tags_from 0 tags
  | none => .ok ()

/-- The `if let Some(step)` block of `validate_entry`. -/
def check_step_index (entry : LogEntry) : Except TimberlogsError Unit :=
  match entry.step_index with
  | some step =>
    if step > 1000 then
      .error (.Validation ("step_index must be 0-1000, got " ++ toString step))
    else
      .ok ()
  | none => .ok ()

/-- `validate_entry` from `src/client.rs` (lines 89-125): sequential
early-return checks on message, then tags, then step index.  Rust
`message.len()` (its byte length, equal to the character count for the ASCII
data the limits speak about) is modelled by `String.length`. -/
def validate_entry (entry : LogEntry) : Except TimberlogsError Unit :=
  if entry.message.length = 0 then
    .error (.Validation "message must not be empty")
  else if entry.message.length > 10000 then
    .error (.Validation ("message exceeds 10000 characters: "
      ++ toString entry.message.length))
  else
    match check_tags_field entry with
    | .error e => .error e
    | .ok () => check_step_index entry

/-- Outcome of one HTTP POST attempt in `send_batch`, as the code
classifies it: 2xx with a parseable body, 2xx whose body fails to parse
(the `?` on `response.json()`), a non-2xx status, or a transport error. -/
inductive AttemptOutcome where
  | ok
  | okBadBody (e : String)
  | http (status : Nat) (body : String)
  | transport (e : String)
deriving DecidableEq, Repr

/-- The error a failing attempt stores into `last_error`. -/
def attempt_failure : AttemptOutcome → Option TimberlogsError
  | .http s b => some (.Http s b)
  | .transport e => some (.Request e)
  | .ok => none
  | .okBadBody _ => none

/-- Observable step of a `send_batch` run: an HTTP attempt (by index), or a
`tokio::time::sleep` of the given number of milliseconds. -/
inductive SendEvent where
  | attempt (idx : Nat)
  | sleep (ms : Nat)
deriving DecidableEq, Repr

/-- Result of a `send_batch` run together with its observable trace. -/
structure SendTrace where
  result : Except TimberlogsError Unit
  events : List SendEvent

/-- The `for attempt in 0..=max_retries` loop of `send_batch`.  `remaining`
is `max_retries - attempt`, so the loop guard `attempt < retry.max_retries`
for sleeping is `remaining > 0`; on the last failing attempt the loop exits
and the code returns `last_error.unwrap()`, which at that point is exactly
the error recorded by the final attempt, so this function returns that error
directly. -/
def send_batch_go (oracle : Nat → AttemptOutcome) (max_delay : Nat) :
    Nat → Nat → Nat → SendTrace
  | 0, attempt, _ =>
    match oracle attempt with
    | .ok => { result := .ok (), events := [.attempt attempt] }
    | .okBadBody e =>
      { result := .error (.Request e), events := [.attempt attempt] }
    | .http s b =>
      { result := .error (.Http s b), events := [.attempt attempt] }
    | .transport e =>
      { result := .error (.Request e), events := [.attempt attempt] }
  | r + 1, attempt, delay =>
    match oracle attempt with
    | .ok => { result := .ok (), events := [.attempt attempt] }
    | .okBadBody e =>
      { result := .error (.Request e), events := [.attempt attempt] }
    | .http _ _ =>
      let t := send_batch_go oracle max_delay r (attempt + 1)
        (min (delay * 2) max_delay)
      { result := t.result
        events := .attempt attempt :: .sleep delay :: t.events }
    | .transport _ =>
      let t := send_batch_go oracle max_delay r (attempt + 1)
        (min (delay * 2) max_delay)
      { result := t.result
        events := .attempt attempt :: .sleep delay :: t.events }

/-- `send_batch` from `src/client.rs` (lines 419-463): attempts 0 through
`max_retries`, starting with `delay = initial_delay_ms`.  The serialized
batch does not influence control flow, so it is not a parameter; the network
oracle maps each attempt index to its outcome. -/
def send_batch (oracle : Nat → AttemptOutcome) (retry : RetryConfig) :
    SendTrace :=
  send_batch_go oracle retry.max_delay_ms retry.max_retries 0
    retry.initial_delay_ms

/-- Number of HTTP attempts recorded in a trace. -/
def count_attempts (events : List SendEvent) : Nat :=
  (events.filter fun e =>
    match e with
    | .attempt _ => true
    | .sleep _ => false).length

/-- `flush_batch` from `src/client.rs` (lines 393-417), as a transition on
the queue.  `q0` is the queue at lock acquisition; `arrivals` are the
records other tasks push while the lock is released across the send (so the
queue re-read on failure is exactly `arrivals`); `send` is the outcome of
`send_batch` on the drained batch.  On failure the code rebuilds the queue
as `drained ++ current`. -/
def flush_batch (q0 arrivals : List CreateLogArgs)
    (send : List CreateLogArgs → Except TimberlogsError Unit) :
    List CreateLogArgs × Except TimberlogsError Unit :=
  if q0.isEmpty then
    (q0, .ok ())
  else
    let drained := q0
    match send drained with
    | .ok () => (arrivals, .ok ())
    | .error e => (drained ++ arrivals, .error e)

/-- The `CreateLogArgs` literal built inside `TimberlogsClient::log`
(lines 246-262): per-entry fields merged with client-level context, the
entry's own `user_id`/`session_id`/`dataset` taking precedence over the
config's. -/
def make_create_log_args (config : ClientConfig) (entry : LogEntry) :
    CreateLogArgs where
  level := entry.level
  message := entry.message
  source := config.source
  environment := config.environment
  version := config.version
  user_id := entry.user_id.orElse fun _ => config.user_id
  session_id := entry.session_id.orElse fun _ => config.session_id
  request_id := entry.request_id
  data := entry.data
  error_name := entry.error_name
  error_stack := entry.error_stack
  tags := entry.tags
  flow_id := entry.flow_id
  step_index := entry.step_index
  dataset := entry.dataset.orElse fun _ => config.dataset
  timestamp := none
  ip_address := none
  country := none

/-- Outcome of a `TimberlogsClient::log` call: the queue afterwards, the
returned `Result`, and whether the batch-size threshold triggered a
synchronous `flush_batch` (the only way a `log` call reaches the network). -/
structure LogResult where
  queue : List CreateLogArgs
  result : Except TimberlogsError Unit
  flushed : Bool
deriving Repr

/-- `TimberlogsClient::log` from `src/client.rs` (lines 232-275): min-level
filter, validation, field resolution, push under lock, then a synchronous
flush when the post-append length reaches `batch_size` (its failure
propagated by `?`). -/
def TimberlogsClient.log (config : ClientConfig) (q0 : List CreateLogArgs)
    (entry : LogEntry) (arrivals : List CreateLogArgs)
    (send : List CreateLogArgs → Except TimberlogsError Unit) : LogResult :=
  if entry.level.toNat < config.min_level.toNat then
    { queue := q0, result := .ok (), flushed := false }
  else
    match validate_entry entry with
    | .error e => { queue := q0, result := .error e, flushed := false }
    | .ok () =>
      let args := make_create_log_args config entry
      let queue := q0 ++ [args]
      let should_flush := decide (queue.length ≥ config.batch_size)
      if should_flush then
        let r := flush_batch queue arrivals send
        { queue := r.1, result := r.2, flushed := true }
      else
        { queue := queue, result := .ok (), flushed := false }

/-- `FlowResponse` from `src/types.rs`. -/
structure FlowResponse where
  flow_id : String
  name : String
deriving DecidableEq, Repr

/-- Outcome of the POST to the flows endpoint in `TimberlogsClient::flow`. -/
inductive FlowReply where
  | ok (resp : FlowResponse)
  | okBadBody (e : String)
  | http (status : Nat) (body : String)
  | transport (e : String)
deriving DecidableEq, Repr

/-- `Flow` from `src/client.rs`: server-issued id, display name, and the
handle-local step counter. -/
structure Flow where
  id : String
  name : String
  step_index : Nat
deriving DecidableEq, Repr

/-- `TimberlogsClient::flow` from `src/client.rs` (lines 277-305): registers
the flow and, on success, returns a handle with `step_index: 0`. -/
def TimberlogsClient.flow : FlowReply → Except TimberlogsError Flow
  | .ok d => .ok { id := d.flow_id, name := d.name, step_index := 0 }
  | .okBadBody e => .error (.Request e)
  | .http s b => .error (.Http s b)
  | .transport e => .error (.Request e)

/-- `Flow::log_with_level` from `src/client.rs` (lines 367-390): reads the
counter, increments it (before awaiting the inner call, so the increment
survives any failure), then forwards through `TimberlogsClient::log` with
the handle's flow id and the read counter value stamped on the entry built
from `LogEntry::default()`. -/
def Flow.log_with_level (flow : Flow) (config : ClientConfig)
    (q0 : List CreateLogArgs) (level : LogLevel) (message : String)
    (data : Option JsonMap) (tags : Option (List String))
    (arrivals : List CreateLogArgs)
    (send : List CreateLogArgs → Except TimberlogsError Unit) :
    Flow × LogResult :=
  let step := flow.step_index
  let flow' := { flow with step_index := flow.step_index + 1 }
  (flow',
   TimberlogsClient.log config q0
     { defaultLogEntry with
       level := level
       message := message
       data := data
       tags := tags
       flow_id := some flow.id
       step_index := some step }
     arrivals send)

/-- One call made through a flow handle: the caller-supplied arguments plus
the environment (concurrent arrivals and the network outcome) of that call. -/
structure FlowCall where
  level : LogLevel
  message : String
  data : Option JsonMap
  tags : Option (List String)
  arrivals : List CreateLogArgs
  send : List CreateLogArgs → Except TimberlogsError Unit

/-- Runs a sequence of calls on a flow handle, threading the handle and the
queue, and returns the `step_index` stamped on each call's entry. -/
def run_flow_calls (config : ClientConfig) :
    Flow → List CreateLogArgs → List FlowCall → List Nat
  | _, _, [] => []
  | flow, q, c :: rest =>
    let r := flow.log_with_level config q c.level c.message c.data c.tags
      c.arrivals c.send
    flow.step_index :: run_flow_calls config r.1 r.2.queue rest

/-! ## Concrete values used by witnesses -/

/-- A queued record as `log` would build it for a plain info message. -/
def sampleArgs : CreateLogArgs where
  level := .Info
  message := "msg 1"
  source := "test"
  environment := .Development
  version := none
  user_id := none
  session_id := none
  request_id := none
  data := none
  error_name := none
  error_stack := none
  tags := none
  flow_id := none
  step_index := none
  dataset := none
  timestamp := none
  ip_address := none
  country := none

def sampleArgs2 : CreateLogArgs := { sampleArgs with message := "msg 2" }

/-- A delivery that always fails with HTTP 500. -/
def failingSend : List CreateLogArgs → Except TimberlogsError Unit :=
  fun _ => .error (.Http 500 "Internal Server Error")

/-- A resolved client config with `min_level: Warn`. -/
def warnConfig : ClientConfig where
  source := "test"
  environment := .Development
  api_key := "tb_test_key"
  version := none
  user_id := none
  session_id := none
  dataset := none
  batch_size := 1
  min_level := .Warn
  retry := RetryConfig.defaultConfig

/-- A resolved client config with `batch_size: 1`, `min_level: Debug`. -/
def batchConfig : ClientConfig := { warnConfig with min_level := .Debug }

/-- A debug-level entry that would fail validation (empty message). -/
def droppedEntry : LogEntry := { defaultLogEntry with level := .Debug }

/-- A valid info-level entry. -/
def infoEntry : LogEntry := { defaultLogEntry with message := "test" }

/-- An ASCII string of exactly `n` characters. -/
def oversized (n : Nat) : String := String.mk (List.replicate n 'x')

theorem oversized_length (n : Nat) : (oversized n).length = n := by
  show (List.replicate n 'x').length = n
  simp

/-- An entry whose `user_id`, `session_id`, `request_id`, `flow_id`,
`error_name`, `error_stack`, `dataset`, `ip_address` and `country` all
exceed the limits the spec assigns them, while message/tags/step index are
fine. -/
def c3Entry : LogEntry :=
  { defaultLogEntry with
    message := "test"
    user_id := some (oversized 101)
    session_id := some (oversized 101)
    request_id := some (oversized 101)
    flow_id := some (oversized 101)
    error_name := some (oversized 201)
    error_stack := some (oversized 10001)
    dataset := some (oversized 51)
    ip_address := some (oversized 101)
    country := some (oversized 11) }

/-! ## Claim theorems -/

/-- C1: when the send of the drained batch fails, `flush_batch` leaves the
queue equal to the drained records followed by the records enqueued while
the send was in flight — drained first, both subsequences in their original
relative order, so nothing is lost or reordered within either phase. -/
theorem flush_batch_requeue_order (q0 arrivals : List CreateLogArgs)
    (send : List CreateLogArgs → Except TimberlogsError Unit)
    (e : TimberlogsError) (hne : q0 ≠ []) (hfail : send q0 = .error e) :
    flush_batch q0 arrivals send = (q0 ++ arrivals, .error e) := by
  simp [flush_batch, hne, hfail]

/-- Witness for C1: a one-record drained batch and one concurrent arrival;
the failed flush leaves `[drained, arrival]` in the queue and returns the
send's error. -/
theorem flush_batch_requeue_order_witness :
    [sampleArgs] ≠ ([] : List CreateLogArgs) ∧
    failingSend [sampleArgs] = .error (.Http 500 "Internal Server Error") ∧
    flush_batch [sampleArgs] [sampleArgs2] failingSend =
      ([sampleArgs] ++ [sampleArgs2], .error (.Http 500 "Internal Server Error")) :=
  ⟨by simp, rfl,
   flush_batch_requeue_order [sampleArgs] [sampleArgs2] failingSend
     (.Http 500 "Internal Server Error") (by simp) rfl⟩

/-- C3 (code evaluation): `validate_entry` in `src/client.rs` performs no
length checks on `user_id`, `session_id`, `request_id`, `flow_id`,
`error_name`, `error_stack`, `dataset`, `ip_address` or `country`: an entry
exceeding every one of those limits at once still validates, although the
repository's own tests (`tests/client_test.rs`, `assert_field_too_long`)
require each of them to fail naming the field and its limit. -/
theorem validate_entry_ignores_string_fields :
    validate_entry c3Entry = .ok () ∧
    c3Entry.user_id = some (oversized 101) ∧
    c3Entry.error_name = some (oversized 201) ∧
    c3Entry.error_stack = some (oversized 10001) ∧
    c3Entry.dataset = some (oversized 51) ∧
    c3Entry.ip_address = some (oversized 101) ∧
    c3Entry.country = some (oversized 11) ∧
    (oversized 101).length = 101 ∧ (oversized 201).length = 201 ∧
    (oversized 10001).length = 10001 ∧ (oversized 51).length = 51 ∧
    (oversized 11).length = 11 :=
  ⟨rfl, rfl, rfl, rfl, rfl, rfl, rfl, oversized_length 101, oversized_length 201,
   oversized_length 10001, oversized_length 51, oversized_length 11⟩

/-- C4: a record whose level is strictly below the configured minimum is
silently dropped: `log` returns success, touches neither validation nor the
queue, and triggers no flush (hence no network call) — for every entry,
including ones that would fail validation. -/
theorem log_below_min_silent_drop (config : ClientConfig)
    (q0 : List CreateLogArgs) (entry : LogEntry)
    (arrivals : List CreateLogArgs)
    (send : List CreateLogArgs → Except TimberlogsError Unit)
    (h : entry.level.toNat < config.min_level.toNat) :
    TimberlogsClient.log config q0 entry arrivals send =
      { queue := q0, result := .ok (), flushed := false } := by
  simp [TimberlogsClient.log, h]

/-- Witness for C4: a debug entry under `min_level: Warn` that would fail
validation (empty message) is still dropped with success and an unchanged
queue. -/
theorem log_below_min_silent_drop_witness :
    droppedEntry.level.toNat < warnConfig.min_level.toNat ∧
    validate_entry droppedEntry = .error (.Validation "message must not be empty") ∧
    TimberlogsClient.log warnConfig [sampleArgs] droppedEntry [] failingSend =
      { queue := [sampleArgs], result := .ok (), flushed := false } :=
  ⟨by decide, rfl,
   log_below_min_silent_drop warnConfig [sampleArgs] droppedEntry [] failingSend
     (by decide)⟩

/-- C5: a `log` call that passes filtering and validation appends the
resolved record to the queue; if the post-append length is still below
`batch_size` the call succeeds with no flush, and once it reaches
`batch_size` a synchronous flush is triggered whose failure is returned to
the caller even though the record remains in the requeued queue. -/
theorem log_append_threshold_flush (config : ClientConfig)
    (q0 : List CreateLogArgs) (entry : LogEntry)
    (arrivals : List CreateLogArgs)
    (send : List CreateLogArgs → Except TimberlogsError Unit)
    (hmin : ¬ entry.level.toNat < config.min_level.toNat)
    (hval : validate_entry entry = .ok ()) :
    ((q0 ++ [make_create_log_args config entry]).length < config.batch_size →
      TimberlogsClient.log config q0 entry arrivals send =
        { queue := q0 ++ [make_create_log_args config entry],
          result := .ok (), flushed := false }) ∧
    (config.batch_size ≤ (q0 ++ [make_create_log_args config entry]).length →
      (TimberlogsClient.log config q0 entry arrivals send).flushed = true ∧
      ∀ e, send (q0 ++ [make_create_log_args config entry]) = .error e →
        TimberlogsClient.log config q0 entry arrivals send =
          { queue := (q0 ++ [make_create_log_args config entry]) ++ arrivals,
            result := .error e, flushed := true } ∧
        make_create_log_args config entry ∈
          (TimberlogsClient.log config q0 entry arrivals send).queue) := by
  have hlen : (q0 ++ [make_create_log_args config entry]).length = q0.length + 1 := by
    simp
  constructor
  · intro hlt
    rw [hlen] at hlt
    simp [TimberlogsClient.log, hmin, hval, Nat.not_le.mpr hlt]
  · intro hge
    rw [hlen] at hge
    have hne : (q0 ++ [make_create_log_args config entry]).isEmpty = false := by
      simp
    refine ⟨?_, ?_⟩
    · simp [TimberlogsClient.log, hmin, hval, hge]
    · intro e he
      refine ⟨?_, ?_⟩
      · simp [TimberlogsClient.log, hmin, hval, hge, flush_batch, hne, he]
      · simp [TimberlogsClient.log, hmin, hval, hge, flush_batch, hne, he]

/-- Witness for C5: with `batch_size: 1`, a valid info entry reaches the
threshold, the synchronous flush fails with HTTP 500, and `log` returns
that failure while the record sits in the requeued queue. -/
theorem log_append_threshold_flush_witness :
    (¬ infoEntry.level.toNat < batchConfig.min_level.toNat) ∧
    validate_entry infoEntry = .ok () ∧
    batchConfig.batch_size ≤ ([] ++ [make_create_log_args batchConfig infoEntry]).length ∧
    failingSend ([] ++ [make_create_log_args batchConfig infoEntry]) =
      .error (.Http 500 "Internal Server Error") ∧
    TimberlogsClient.log batchConfig [] infoEntry [] failingSend =
      { queue := ([] ++ [make_create_log_args batchConfig infoEntry]) ++ [],
        result := .error (.Http 500 "Internal Server Error"), flushed := true } ∧
    make_create_log_args batchConfig infoEntry ∈
      (TimberlogsClient.log batchConfig [] infoEntry [] failingSend).queue := by
  have h := log_append_threshold_flush batchConfig [] infoEntry [] failingSend
    (by decide) rfl
  have h2 := (h.2 (by decide)).2 (.Http 500 "Internal Server Error") rfl
  exact ⟨by decide, rfl, by decide, rfl, h2.1, h2.2⟩

/-- C9 (code evaluation): the configuration surface of `src/client.rs`
recognizes only `source`, `environment`, `api_key`, `version`, `user_id`,
`session_id`, `dataset`, `batch_size`, `flush_interval_ms`, `min_level` and
`retry` — no `base_url` and no `on_error`, although the repository's own
tests construct configs with both — while an all-omitted config does
resolve to the claimed defaults: batch size 10, flush interval 5000 ms,
min level debug, retries 3, initial delay 1000 ms, max delay 30000 ms. -/
theorem config_surface_and_defaults :
    "base_url" ∉ timberlogsConfigFields ∧
    "on_error" ∉ timberlogsConfigFields ∧
    ∀ (source : String) (env : Environment) (key : String),
      TimberlogsClient.new
        { source := source, environment := env, api_key := key,
          version := none, user_id := none, session_id := none,
          dataset := none, batch_size := none, flush_interval_ms := none,
          min_level := none, retry := none } =
      ({ source := source, environment := env, api_key := key,
         version := none, user_id := none, session_id := none,
         dataset := none, batch_size := 10, min_level := .Debug,
         retry := { max_retries := 3, initial_delay_ms := 1000,
                    max_delay_ms := 30000 } }, 5000) :=
  ⟨by decide, by decide, fun _ _ _ => rfl⟩

/-- C10: every call through a flow handle increments the handle's step
counter by exactly one, whatever the call's outcome — the increment happens
before the forwarded `log` call, so min-level drops and validation
rejections still consume a step number. -/
theorem flow_counter_increments_unconditionally (flow : Flow)
    (config : ClientConfig) (q0 : List CreateLogArgs) (level : LogLevel)
    (message : String) (data : Option JsonMap) (tags : Option (List String))
    (arrivals : List CreateLogArgs)
    (send : List CreateLogArgs → Except TimberlogsError Unit) :
    (Flow.log_with_level flow config q0 level message data tags arrivals
      send).1 = { flow with step_index := flow.step_index + 1 } := rfl

/-- A send that always succeeds. -/
def okSend : List CreateLogArgs → Except TimberlogsError Unit := fun _ => .ok ()

/-- A flow-handle call with benign arguments. -/
def sampleCall : FlowCall where
  level := .Info
  message := "step"
  data := none
  tags := none
  arrivals := []
  send := okSend

/-- A freshly created flow handle (counter 0). -/
def freshFlow : Flow where
  id := "flow_1"
  name := "checkout"
  step_index := 0

theorem run_flow_calls_steps (config : ClientConfig) (calls : List FlowCall) :
    ∀ (flow : Flow) (q : List CreateLogArgs),
      run_flow_calls config flow q calls =
        (List.range calls.length).map (fun k => flow.step_index + k) := by
  induction calls with
  | nil => intro flow q; rfl
  | cons c rest ih =>
    intro flow q
    have hstep : (Flow.log_with_level flow config q c.level c.message c.data
        c.tags c.arrivals c.send).1.step_index = flow.step_index + 1 := rfl
    simp only [run_flow_calls, ih, hstep, List.length_cons,
      List.range_succ_eq_map, List.map_cons, List.map_map]
    refine List.cons_eq_cons.mpr ⟨by omega, List.map_congr_left ?_⟩
    intro k _
    simp only [Function.comp_apply]
    omega

/-- C8: a successfully registered flow handle starts with step counter 0;
each `log_with_level` call stamps the entry with the handle's flow id and
the counter's current value as `step_index`, increments the counter, and
forwards through the same `TimberlogsClient.log` path as a top-level call;
hence a sequence of calls on a fresh handle is stamped 0, 1, 2, … — the
n-th call carries `step_index` n-1. -/
theorem flow_handle_step_semantics :
    (∀ d : FlowResponse, TimberlogsClient.flow (.ok d) =
      .ok { id := d.flow_id, name := d.name, step_index := 0 }) ∧
    (∀ (flow : Flow) (config : ClientConfig) (q0 : List CreateLogArgs)
      (level : LogLevel) (message : String) (data : Option JsonMap)
      (tags : Option (List String)) (arrivals : List CreateLogArgs)
      (send : List CreateLogArgs → Except TimberlogsError Unit),
      Flow.log_with_level flow config q0 level message data tags arrivals send =
        ({ flow with step_index := flow.step_index + 1 },
         TimberlogsClient.log config q0
           { defaultLogEntry with
             level := level, message := message, data := data, tags := tags,
             flow_id := some flow.id, step_index := some flow.step_index }
           arrivals send)) ∧
    (∀ (config : ClientConfig) (q : List CreateLogArgs) (calls : List FlowCall)
      (flow : Flow), flow.step_index = 0 →
      run_flow_calls config flow q calls = List.range calls.length) := by
  refine ⟨fun d => rfl, fun flow config q0 level message data tags arrivals send => rfl, ?_⟩
  intro config q calls flow h
  rw [run_flow_calls_steps, h]
  simp

/-- Witness for C8: three calls on a fresh handle are stamped `[0, 1, 2]`. -/
theorem flow_handle_step_semantics_witness :
    freshFlow.step_index = 0 ∧
    run_flow_calls warnConfig freshFlow [] [sampleCall, sampleCall, sampleCall] =
      List.range 3 :=
  ⟨rfl, flow_handle_step_semantics.2.2 warnConfig []
    [sampleCall, sampleCall, sampleCall] freshFlow rfl⟩

/-! ## Retry engine (C2, C6) -/

/-- The delay sequence of `send_batch` starting from `d`:
`delaysFrom maxd d 0 = d`, and each step applies `min (2 ·) maxd`. -/
def delaysFrom (max_delay : Nat) : Nat → Nat → Nat
  | d, 0 => d
  | d, k + 1 => delaysFrom max_delay (min (d * 2) max_delay) k

/-- The backoff delay used before the (k+1)-st attempt of a `send_batch`
run under `retry`. -/
def backoff_delays (retry : RetryConfig) (k : Nat) : Nat :=
  delaysFrom retry.max_delay_ms retry.initial_delay_ms k

theorem delaysFrom_succ (maxd k : Nat) : ∀ d : Nat,
    delaysFrom maxd d (k + 1) = min (delaysFrom maxd d k * 2) maxd := by
  induction k with
  | zero => intro d; rfl
  | succ k ih =>
    intro d
    show delaysFrom maxd (min (d * 2) maxd) (k + 1) =
      min (delaysFrom maxd (min (d * 2) maxd) k * 2) maxd
    exact ih (min (d * 2) maxd)

theorem count_attempts_cons_attempt (a : Nat) (es : List SendEvent) :
    count_attempts (SendEvent.attempt a :: es) = count_attempts es + 1 := by
  simp [count_attempts, List.filter_cons]

theorem count_attempts_cons_sleep (d : Nat) (es : List SendEvent) :
    count_attempts (SendEvent.sleep d :: es) = count_attempts es := by
  simp [count_attempts, List.filter_cons]

theorem send_batch_go_all_fail (oracle : Nat → AttemptOutcome) (maxd : Nat) :
    ∀ (rem a d : Nat),
      (∀ k, k ≤ rem → (attempt_failure (oracle (a + k))).isSome = true) →
      count_attempts (send_batch_go oracle maxd rem a d).events = rem + 1 ∧
      ∀ e, attempt_failure (oracle (a + rem)) = some e →
        (send_batch_go oracle maxd rem a d).result = .error e := by
  intro rem
  induction rem with
  | zero =>
    intro a d h
    have h0 := h 0 (Nat.le_refl 0)
    simp only [Nat.add_zero] at h0 ⊢
    cases ho : oracle a with
    | ok => rw [ho] at h0; simp [attempt_failure] at h0
    | okBadBody e => rw [ho] at h0; simp [attempt_failure] at h0
    | http s b =>
      refine ⟨by simp [send_batch_go, ho, count_attempts], ?_⟩
      intro e' he'
      simp only [attempt_failure, Option.some.injEq] at he'
      subst he'
      simp [send_batch_go, ho]
    | transport e =>
      refine ⟨by simp [send_batch_go, ho, count_attempts], ?_⟩
      intro e' he'
      simp only [attempt_failure, Option.some.injEq] at he'
      subst he'
      simp [send_batch_go, ho]
  | succ r ih =>
    intro a d h
    have h0 := h 0 (Nat.zero_le _)
    simp only [Nat.add_zero] at h0
    have hshift : ∀ k, k ≤ r →
        (attempt_failure (oracle (a + 1 + k))).isSome = true := by
      intro k hk
      have hk1 : a + 1 + k = a + (k + 1) := by omega
      rw [hk1]
      exact h (k + 1) (Nat.succ_le_succ hk)
    have hrec := ih (a + 1) (min (d * 2) maxd) hshift
    have harith : a + 1 + r = a + (r + 1) := by omega
    cases ho : oracle a with
    | ok => rw [ho] at h0; simp [attempt_failure] at h0
    | okBadBody e => rw [ho] at h0; simp [attempt_failure] at h0
    | http s b =>
      refine ⟨?_, ?_⟩
      · simp only [send_batch_go, ho]
        rw [count_attempts_cons_attempt, count_attempts_cons_sleep, hrec.1]
      · intro e' he'
        simp only [send_batch_go, ho]
        exact hrec.2 e' (by rw [harith]; exact he')
    | transport e =>
      refine ⟨?_, ?_⟩
      · simp only [send_batch_go, ho]
        rw [count_attempts_cons_attempt, count_attempts_cons_sleep, hrec.1]
      · intro e' he'
        simp only [send_batch_go, ho]
        exact hrec.2 e' (by rw [harith]; exact he')

/-- C2: when every attempt of a `send_batch` run fails (non-2xx response or
transport error), exactly `1 + max_retries` HTTP attempts are made, and the
error returned is the last attempt's: for an HTTP failure, exactly the
final response's status code and body. -/
theorem send_batch_exhausted_last_error (oracle : Nat → AttemptOutcome)
    (retry : RetryConfig)
    (h : ∀ k, k ≤ retry.max_retries → (attempt_failure (oracle k)).isSome = true) :
    count_attempts (send_batch oracle retry).events = retry.max_retries + 1 ∧
    (∀ s b, oracle retry.max_retries = .http s b →
      (send_batch oracle retry).result = .error (.Http s b)) ∧
    (∀ e, oracle retry.max_retries = .transport e →
      (send_batch oracle retry).result = .error (.Request e)) := by
  have main := send_batch_go_all_fail oracle retry.max_delay_ms
    retry.max_retries 0 retry.initial_delay_ms
    (by intro k hk; simpa using h k hk)
  refine ⟨main.1, ?_, ?_⟩
  · intro s b hb
    exact main.2 (.Http s b) (by simp [hb, attempt_failure])
  · intro e he
    exact main.2 (.Request e) (by simp [he, attempt_failure])

/-- A permanently failing endpoint: HTTP 500 on every attempt. -/
def failOracle : Nat → AttemptOutcome := fun _ => .http 500 "Internal Server Error"

/-- Witness for C2: with the default retry policy (3 retries) against a
permanent HTTP 500, four attempts are made and the returned error carries
status 500 and the final body. -/
theorem send_batch_exhausted_last_error_witness :
    (∀ k, k ≤ RetryConfig.defaultConfig.max_retries →
      (attempt_failure (failOracle k)).isSome = true) ∧
    count_attempts (send_batch failOracle RetryConfig.defaultConfig).events = 4 ∧
    (send_batch failOracle RetryConfig.defaultConfig).result =
      .error (.Http 500 "Internal Server Error") := by
  have h : ∀ k, k ≤ RetryConfig.defaultConfig.max_retries →
      (attempt_failure (failOracle k)).isSome = true := fun k _ => rfl
  have main := send_batch_exhausted_last_error failOracle RetryConfig.defaultConfig h
  exact ⟨h, main.1, main.2.1 500 "Internal Server Error" rfl⟩

/-- The event trace of a run that makes attempts `a .. a + n`, starting with
delay `d`: an attempt, then a sleep with the current delay, then the rest
with the doubled-and-capped delay. -/
def schedule_events (maxd : Nat) : Nat → Nat → Nat → List SendEvent
  | a, _, 0 => [.attempt a]
  | a, d, n + 1 =>
    .attempt a :: .sleep d :: schedule_events maxd (a + 1) (min (d * 2) maxd) n

theorem schedule_events_eq_flatMap (maxd : Nat) : ∀ (n a d : Nat),
    schedule_events maxd a d n =
      ((List.range n).flatMap fun k =>
        [SendEvent.attempt (a + k), SendEvent.sleep (delaysFrom maxd d k)]) ++
      [SendEvent.attempt (a + n)] := by
  intro n
  induction n with
  | zero => intro a d; simp [schedule_events]
  | succ n ih =>
    intro a d
    have hfun : (fun k => [SendEvent.attempt (a + Nat.succ k),
        SendEvent.sleep (delaysFrom maxd d (Nat.succ k))]) =
        fun k => [SendEvent.attempt (a + 1 + k),
          SendEvent.sleep (delaysFrom maxd (min (d * 2) maxd) k)] := by
      funext k
      have h1 : a + Nat.succ k = a + 1 + k := by omega
      rw [h1]
      show [SendEvent.attempt (a + 1 + k),
        SendEvent.sleep (delaysFrom maxd (min (d * 2) maxd) k)] = _
      rfl
    have hend : a + (n + 1) = a + 1 + n := by omega
    rw [schedule_events, ih (a + 1) (min (d * 2) maxd)]
    simp only [List.range_succ_eq_map, List.flatMap_cons, List.flatMap_map,
      hfun, hend, Nat.add_zero]
    show _ = ([SendEvent.attempt a, SendEvent.sleep (delaysFrom maxd d 0)] ++ _) ++ _
    simp [delaysFrom]

theorem send_batch_go_events_shape (oracle : Nat → AttemptOutcome) (maxd : Nat) :
    ∀ (rem a d : Nat), ∃ n, n ≤ rem ∧
      (send_batch_go oracle maxd rem a d).events = schedule_events maxd a d n := by
  intro rem
  induction rem with
  | zero =>
    intro a d
    refine ⟨0, Nat.le_refl 0, ?_⟩
    cases ho : oracle a with
    | ok => simp [send_batch_go, ho, schedule_events]
    | okBadBody e => simp [send_batch_go, ho, schedule_events]
    | http s b => simp [send_batch_go, ho, schedule_events]
    | transport e => simp [send_batch_go, ho, schedule_events]
  | succ r ih =>
    intro a d
    cases ho : oracle a with
    | ok => exact ⟨0, Nat.zero_le _, by simp [send_batch_go, ho, schedule_events]⟩
    | okBadBody e =>
      exact ⟨0, Nat.zero_le _, by simp [send_batch_go, ho, schedule_events]⟩
    | http s b =>
      obtain ⟨n, hn, he⟩ := ih (a + 1) (min (d * 2) maxd)
      refine ⟨n + 1, Nat.succ_le_succ hn, ?_⟩
      simp only [send_batch_go, ho, schedule_events, he]
    | transport e =>
      obtain ⟨n, hn, he⟩ := ih (a + 1) (min (d * 2) maxd)
      refine ⟨n + 1, Nat.succ_le_succ hn, ?_⟩
      simp only [send_batch_go, ho, schedule_events, he]

/-- C6: every `send_batch` run consists of attempts 0..n with exactly one
sleep between consecutive attempts and none after the last, and the k-th
sleep lasts `backoff_delays retry k`, a sequence satisfying
`d 0 = initial_delay_ms` and `d (k+1) = min (d k * 2) max_delay_ms` — the
delay doubles after each failed attempt, capped at `max_delay_ms`. -/
theorem send_batch_backoff_schedule (oracle : Nat → AttemptOutcome)
    (retry : RetryConfig) :
    backoff_delays retry 0 = retry.initial_delay_ms ∧
    (∀ k, backoff_delays retry (k + 1) =
      min (backoff_delays retry k * 2) retry.max_delay_ms) ∧
    ∃ n, (send_batch oracle retry).events =
      ((List.range n).flatMap fun k =>
        [SendEvent.attempt k, SendEvent.sleep (backoff_delays retry k)]) ++
      [SendEvent.attempt n] := by
  refine ⟨rfl, fun k => delaysFrom_succ retry.max_delay_ms k retry.initial_delay_ms, ?_⟩
  obtain ⟨n, _, he⟩ := send_batch_go_events_shape oracle retry.max_delay_ms
    retry.max_retries 0 retry.initial_delay_ms
  refine ⟨n, ?_⟩
  rw [show send_batch oracle retry = send_batch_go oracle retry.max_delay_ms
      retry.max_retries 0 retry.initial_delay_ms from rfl, he,
    schedule_events_eq_flatMap]
  simp [backoff_delays]

/-! ## Validation rules (C7) -/

theorem check_tags_from_ok_iff (ts : List String) : ∀ i : Nat,
    check_tags_from i ts = .ok () ↔ ∀ t ∈ ts, t.length ≤ 50 := by
  induction ts with
  | nil => intro i; simp [check_tags_from]
  | cons t rest ih =>
    intro i
    by_cases h : 50 < t.length
    · have hnot : ¬ t.length ≤ 50 := Nat.not_le.mpr h
      simp [check_tags_from, h, hnot]
    · have hle : t.length ≤ 50 := Nat.not_lt.mp h
      simp [check_tags_from, h, hle, ih]

theorem check_tags_from_first_long (t : String) (h50 : 50 < t.length) :
    ∀ (pre post : List String) (i : Nat), (∀ u ∈ pre, u.length ≤ 50) →
      check_tags_from i (pre ++ t :: post) =
        .error (.Validation ("tags[" ++ toString (i + pre.length) ++
          "] exceeds 50 characters: " ++ toString t.length)) := by
  intro pre
  induction pre with
  | nil =>
    intro post i _
    simp [check_tags_from, h50]
  | cons u rest ih =>
    intro post i hpre
    have hu : u.length ≤ 50 := hpre u (List.mem_cons_self u rest)
    have hnot : ¬ 50 < u.length := Nat.not_lt.mpr hu
    rw [List.cons_append]
    simp only [check_tags_from, if_neg hnot]
    rw [ih post (i + 1) (fun v hv => hpre v (List.mem_cons_of_mem u hv))]
    have harith : i + 1 + rest.length = i + (u :: rest).length := by
      simp [List.length_cons]
      omega
    rw [harith]

theorem check_tags_field_ok_iff (entry : LogEntry) :
    check_tags_field entry = .ok () ↔
      ∀ ts, entry.tags = some ts →
        ts.length ≤ 20 ∧ ∀ t ∈ ts, t.length ≤ 50 := by
  cases hts : entry.tags with
  | none => simp [check_tags_field, hts]
  | some ts =>
    by_cases h : 20 < ts.length
    · have hnot : ¬ ts.length ≤ 20 := Nat.not_le.mpr h
      simp [check_tags_field, hts, h, hnot]
    · have hle : ts.length ≤ 20 := Nat.not_lt.mp h
      simp [check_tags_field, hts, h, hle, check_tags_from_ok_iff]

theorem check_step_index_ok_iff (entry : LogEntry) :
    check_step_index entry = .ok () ↔
      ∀ s, entry.step_index = some s → s ≤ 1000 := by
  cases hs : entry.step_index with
  | none => simp [check_step_index, hs]
  | some s =>
    by_cases h : 1000 < s
    · have hnot : ¬ s ≤ 1000 := Nat.not_le.mpr h
      simp [check_step_index, hs, h, hnot]
    · have hle : s ≤ 1000 := Nat.not_lt.mp h
      simp [check_step_index, hs, h, hle]

/-- C7: for a record at or above the minimum level, validation passes
exactly when the message length is in [1, 10000], every present tag list
has at most 20 entries of at most 50 characters each, and any present step
index is at most 1000; the first violation in the order message, tags,
step index determines the error, naming "message", "tags" (with the
offending index), or "step_index"; and a `log` call whose validation fails
returns that error with the queue untouched and no flush. -/
theorem validate_entry_rules (entry : LogEntry) (config : ClientConfig)
    (q0 arrivals : List CreateLogArgs)
    (send : List CreateLogArgs → Except TimberlogsError Unit) :
    (validate_entry entry = .ok () ↔
      (1 ≤ entry.message.length ∧ entry.message.length ≤ 10000 ∧
       (∀ ts, entry.tags = some ts →
         ts.length ≤ 20 ∧ ∀ t ∈ ts, t.length ≤ 50) ∧
       (∀ s, entry.step_index = some s → s ≤ 1000))) ∧
    (entry.message.length = 0 →
      validate_entry entry = .error (.Validation "message must not be empty")) ∧
    (10000 < entry.message.length →
      validate_entry entry = .error (.Validation
        ("message exceeds 10000 characters: " ++ toString entry.message.length))) ∧
    (∀ ts, 1 ≤ entry.message.length → entry.message.length ≤ 10000 →
      entry.tags = some ts → 20 < ts.length →
      validate_entry entry = .error (.Validation
        ("tags must have at most 20 items, got " ++ toString ts.length))) ∧
    (∀ pre t post, 1 ≤ entry.message.length → entry.message.length ≤ 10000 →
      entry.tags = some (pre ++ t :: post) → (pre ++ t :: post).length ≤ 20 →
      (∀ u ∈ pre, u.length ≤ 50) → 50 < t.length →
      validate_entry entry = .error (.Validation
        ("tags[" ++ toString pre.length ++ "] exceeds 50 characters: "
          ++ toString t.length))) ∧
    (∀ s, 1 ≤ entry.message.length → entry.message.length ≤ 10000 →
      (∀ ts, entry.tags = some ts →
        ts.length ≤ 20 ∧ ∀ t ∈ ts, t.length ≤ 50) →
      entry.step_index = some s → 1000 < s →
      validate_entry entry = .error (.Validation
        ("step_index must be 0-1000, got " ++ toString s))) ∧
    (∀ err, ¬ entry.level.toNat < config.min_level.toNat →
      validate_entry entry = .error err →
      TimberlogsClient.log config q0 entry arrivals send =
        { queue := q0, result := .error err, flushed := false }) := by
  refine ⟨?_, ?_, ?_, ?_, ?_, ?_, ?_⟩
  · by_cases h0 : entry.message.length = 0
    · simp [validate_entry, h0]
    · by_cases hbig : 10000 < entry.message.length
      · have : ¬ entry.message.length ≤ 10000 := Nat.not_le.mpr hbig
        simp [validate_entry, h0, hbig, this]
      · have hle : entry.message.length ≤ 10000 := Nat.not_lt.mp hbig
        have h1 : 1 ≤ entry.message.length := Nat.one_le_iff_ne_zero.mpr h0
        cases hc : check_tags_field entry with
        | error e =>
          have hnotags : ¬ ∀ ts, entry.tags = some ts →
              ts.length ≤ 20 ∧ ∀ t ∈ ts, t.length ≤ 50 := by
            intro hp
            have := (check_tags_field_ok_iff entry).mpr hp
            rw [this] at hc
            exact Except.noConfusion hc
          simp [validate_entry, h0, hbig, hc, h1, hle, hnotags]
        | ok u =>
          cases u
          have htags := (check_tags_field_ok_iff entry).mp hc
          simp [validate_entry, h0, hbig, hc, h1, hle, htags,
            check_step_index_ok_iff]
          exact fun _ => htags
  · intro h0
    simp [validate_entry, h0]
  · intro hbig
    have h0 : ¬ entry.message.length = 0 := by omega
    simp [validate_entry, h0, hbig]
  · intro ts _ hle hts hcount
    have h0 : ¬ entry.message.length = 0 := by omega
    have hnotbig : ¬ 10000 < entry.message.length := Nat.not_lt.mpr hle
    simp [validate_entry, h0, hnotbig, check_tags_field, hts, hcount]
  · intro pre t post _ hle hts hcount hpre h50
    have h0 : ¬ entry.message.length = 0 := by omega
    have hnotbig : ¬ 10000 < entry.message.length := Nat.not_lt.mpr hle
    have hcount' : ¬ 20 < pre.length + (post.length + 1) := by
      simp [List.length_append] at hcount
      omega
    have hfrom := check_tags_from_first_long t h50 pre post 0 hpre
    rw [Nat.zero_add] at hfrom
    simp [validate_entry, h0, hnotbig, check_tags_field, hts, hcount', hfrom]
  · intro s _ hle htags hs hbig
    have h0 : ¬ entry.message.length = 0 := by omega
    have hnotbig : ¬ 10000 < entry.message.length := Nat.not_lt.mpr hle
    have hc : check_tags_field entry = .ok () :=
      (check_tags_field_ok_iff entry).mpr htags
    simp [validate_entry, h0, hnotbig, hc, check_step_index, hs, hbig]
  · intro err hmin herr
    simp [TimberlogsClient.log, hmin, herr]

/-- An entry whose second tag is over-long and whose step index is also out
of range: the tags error must win. -/
def tagEntry : LogEntry :=
  { defaultLogEntry with
    message := "test"
    tags := some ["ok", oversized 51]
    step_index := some 1001 }

/-- Witness for C7: on a concrete entry with an over-long second tag and an
out-of-range step index, validation reports the tags violation (with index
1), and the `log` call returns that error leaving the queue unchanged. -/
theorem validate_entry_rules_witness :
    tagEntry.tags = some (["ok"] ++ oversized 51 :: []) ∧
    50 < (oversized 51).length ∧
    validate_entry tagEntry = .error (.Validation
      ("tags[" ++ toString (List.length ["ok"]) ++ "] exceeds 50 characters: "
        ++ toString (oversized 51).length)) ∧
    TimberlogsClient.log batchConfig [sampleArgs] tagEntry [] failingSend =
      { queue := [sampleArgs],
        result := .error (.Validation
          ("tags[" ++ toString (List.length ["ok"]) ++ "] exceeds 50 characters: "
            ++ toString (oversized 51).length)),
        flushed := false } := by
  have h50 : 50 < (oversized 51).length := by rw [oversized_length]; omega
  have hmain := validate_entry_rules tagEntry batchConfig [sampleArgs] [] failingSend
  have hval := hmain.2.2.2.2.1 ["ok"] (oversized 51) [] (by decide) (by decide)
    rfl (by decide) (by decide) h50
  have hlog := hmain.2.2.2.2.2.2 _ (by decide) hval
  exact ⟨rfl, h50, hval, hlog⟩

end Timberlogs
